import Mathlib

/-!
Verification of the GPU health-check orchestrator (bare-metal server and
artifact ingester) against its natural-language specification.

The Python sources are shallowly embedded: pure parsing functions become Lean
functions over `String`/`List Char`, numeric values are modelled as `ℚ`
(IEEE-754 rounding is abstracted away; every concrete value used in a proof is
exactly representable in binary floating point), stateful handlers become
explicit state-passing functions, and fallible code returns `Except`.

Modelling conventions, noted once here:
  * `str.isdigit` and the digit test on a single character are modelled on the
    ASCII range (`Char.isDigit`), where they coincide with Python; non-ASCII
    Unicode digit characters are outside the model.
  * `float(token)` is modelled by `pyFloat`, which accepts the sign, decimal
    point and exponent forms; the textual forms `inf`/`nan` and underscore
    separators are outside the model (they do not occur in the tool outputs
    being parsed, and no theorem below depends on them).
  * timestamps are opaque strings supplied as arguments named `now`.
-/

/- ---------------------------------------------------------------------------
Python string primitives used by the parsers.
--------------------------------------------------------------------------- -/

/-- ASCII whitespace as recognised by `str.strip` / `str.split`. -/
def isPySpace (c : Char) : Bool :=
  c == ' ' || c == '\t' || c == '\n' || c == '\r' || c == '\x0b' || c == '\x0c'

/-- `str.strip()`: drop leading and trailing whitespace. -/
def pyStrip (s : String) : String :=
  String.mk (((s.toList.dropWhile isPySpace).reverse.dropWhile isPySpace).reverse)

/-- Helper for `splitWS`: accumulates the current (reversed) token. -/
def splitWSAux : List Char → List Char → List String
  | [], cur => if cur.isEmpty then [] else [String.mk cur.reverse]
  | c :: rest, cur =>
    if isPySpace c then
      if cur.isEmpty then splitWSAux rest []
      else String.mk cur.reverse :: splitWSAux rest []
    else splitWSAux rest (c :: cur)

/-- `str.split()` with no argument: split on runs of whitespace, no empties. -/
def splitWS (s : String) : List String := splitWSAux s.toList []

/-- Helper for `splitlines`: accumulates the current (reversed) line. -/
def splitlinesAux : List Char → List Char → List String
  | [], cur => if cur.isEmpty then [] else [String.mk cur.reverse]
  | '\r' :: '\n' :: rest, cur => String.mk cur.reverse :: splitlinesAux rest []
  | '\n' :: rest, cur => String.mk cur.reverse :: splitlinesAux rest []
  | '\r' :: rest, cur => String.mk cur.reverse :: splitlinesAux rest []
  | c :: rest, cur => splitlinesAux rest (c :: cur)

/-- `str.splitlines()` for the line boundaries LF, CR and CRLF. -/
def splitlines (s : String) : List String := splitlinesAux s.toList []

/-- Does the second list start with the first one? -/
def leadsWith : List Char → List Char → Bool
  | [], _ => true
  | _ :: _, [] => false
  | a :: as, b :: bs => a == b && leadsWith as bs

/-- Substring occurrence over character lists (needle first). -/
def hasSubList (needle : List Char) : List Char → Bool
  | [] => leadsWith needle []
  | c :: t => leadsWith needle (c :: t) || hasSubList needle t

/-- Python `needle in hay` on strings. -/
def hasSubStr (hay needle : String) : Bool := hasSubList needle.toList hay.toList

/-- `str.isdigit()` on a whole token (ASCII range). -/
def pyIsDigitStr (s : String) : Bool := !s.toList.isEmpty && s.toList.all Char.isDigit

/-- Is the first character of the string an ASCII decimal digit? -/
def firstCharDigit (s : String) : Bool :=
  match s.toList with
  | [] => false
  | c :: _ => c.isDigit

/-- Value of a run of ASCII digits. -/
def digitsVal (ds : List Char) : Nat := ds.foldl (fun a c => a * 10 + (c.toNat - 48)) 0

/-- Consume one optional sign; `true` means negative. -/
def pySign : List Char → Bool × List Char
  | '-' :: rest => (true, rest)
  | '+' :: rest => (false, rest)
  | cs => (false, cs)

/-- Exponent tail of a float literal: the characters after `e`/`E`. -/
def pyExpVal (cs : List Char) : Option ℤ :=
  let sr := pySign cs
  let ds := sr.2.takeWhile Char.isDigit
  let rest := sr.2.dropWhile Char.isDigit
  if ds.isEmpty || !rest.isEmpty then none
  else some (if sr.1 then -(digitsVal ds : ℤ) else (digitsVal ds : ℤ))

/-- The rational value of a parsed float literal with sign `neg`, integer
digits `ip`, fraction digits `fp` and decimal exponent `e`:
`± ip.fp × 10^e`. -/
def pyFloatVal (neg : Bool) (ip fp : List Char) (e : ℤ) : ℚ :=
  let base : ℤ := Int.ofNat (digitsVal ip * Nat.pow 10 fp.length + digitsVal fp)
  let num : ℤ := if neg then -base else base
  match e with
  | .ofNat n => mkRat (num * Int.ofNat (Nat.pow 10 n)) (Nat.pow 10 fp.length)
  | .negSucc n => mkRat num (Nat.pow 10 fp.length * Nat.pow 10 (n + 1))

/-- Python `float(token)` on the decimal forms `[±]ddd[.ddd][e[±]ddd]`
(with at least one digit in the mantissa), as a rational. -/
def pyFloat (s : String) : Option ℚ :=
  let sr := pySign s.toList
  let ip := sr.2.takeWhile Char.isDigit
  let cs2 := sr.2.dropWhile Char.isDigit
  let hasDot : Bool := match cs2 with
    | '.' :: _ => true
    | _ => false
  let fpRest := match cs2 with
    | '.' :: r => r
    | _ => cs2
  let fp := if hasDot then fpRest.takeWhile Char.isDigit else []
  let cs3 := if hasDot then fpRest.dropWhile Char.isDigit else cs2
  if ip.isEmpty && fp.isEmpty then none
  else
    match cs3 with
    | [] => some (pyFloatVal sr.1 ip fp 0)
    | 'e' :: r => (pyExpVal r).map (pyFloatVal sr.1 ip fp)
    | 'E' :: r => (pyExpVal r).map (pyFloatVal sr.1 ip fp)
    | _ => none

/-- `min(values)` for a non-empty list, `0.0` for an empty one — the common
tail of both parsers (`min(values) if values else 0.0`). -/
def minOrZero : List ℚ → ℚ
  | [] => 0
  | v :: vs => vs.foldl min v

/- ---------------------------------------------------------------------------
parse_nvbandwidth (src/baremetal_server.py:343-357).
--------------------------------------------------------------------------- -/

/-- The acceptance window `10 <= value <= 1200` of `parse_nvbandwidth`. -/
def bwInRange (v : ℚ) : Bool := decide (10 ≤ v ∧ v ≤ 1200)

/-- Inner loop of `parse_nvbandwidth` over `parts[1:]`: a token parsing as a
float is kept when in range; a token that does not parse breaks the line. -/
def nvbChunks : List String → List ℚ → List ℚ
  | [], values => values
  | c :: rest, values =>
    match pyFloat c with
    | some v => nvbChunks rest (if bwInRange v then values ++ [v] else values)
    | none => values

/-- Outer loop of `parse_nvbandwidth` over `output.splitlines()`. -/
def nvbLines : List String → List ℚ → List ℚ
  | [], values => values
  | line :: rest, values =>
    let l := pyStrip line
    if l == "" then nvbLines rest values
    else if !firstCharDigit l then nvbLines rest values
    else nvbLines rest (nvbChunks ((splitWS l).drop 1) values)

/-- `parse_nvbandwidth` embedded from the source. -/
def parse_nvbandwidth (output : String) : ℚ :=
  minOrZero (nvbLines (splitlines output) [])

/-- Claim-side description of the values accepted from one line: tokens from
the second onward, scanned up to the first token that does not parse as a
float, filtered to the inclusive range `[10, 1200]`. -/
def nvbLineAccepted (line : String) : List ℚ :=
  if firstCharDigit (pyStrip line) then
    ((((splitWS (pyStrip line)).drop 1).takeWhile
        (fun t => (pyFloat t).isSome)).filterMap pyFloat).filter bwInRange
  else []

/-- Claim-side description of all accepted values of an `nvbandwidth` blob. -/
def nvbClaimValues (output : String) : List ℚ :=
  (splitlines output).flatMap nvbLineAccepted

/- ---------------------------------------------------------------------------
parse_p2p (src/baremetal_server.py:360-394).
--------------------------------------------------------------------------- -/

def p2pBeginLit : String := "Bidirectional P2P=Enabled Bandwidth Matrix"

def p2pEndLit : String := "P2P=Disabled Latency Matrix"

/-- Values taken from one matrix row: `enumerate(parts[1:])`, keeping
strictly positive entries off the diagonal; a token that does not parse as a
float is skipped (the inner loop continues). -/
def p2pRow (rowIdx : Nat) (chunks : List String) : List ℚ :=
  chunks.enum.filterMap (fun ic =>
    match pyFloat ic.2 with
    | some v => if decide (0 < v) && !(rowIdx == ic.1) then some v else none
    | none => none)

/-- The main loop of `parse_p2p`, threading the `collecting` flag, the row
counter and the accumulated values; a line containing the end literal (checked
after the begin literal) breaks out of the whole loop. -/
def p2pLoop : List String → Bool → Nat → List ℚ → List ℚ
  | [], _, _, values => values
  | line :: rest, collecting, rowCount, values =>
    if hasSubStr line p2pBeginLit then p2pLoop rest true 0 values
    else if hasSubStr line p2pEndLit then values
    else if collecting then
      if pyStrip line == "" then p2pLoop rest collecting rowCount values
      else if !pyIsDigitStr ((splitWS line).headD "") then p2pLoop rest collecting rowCount values
      else if (splitWS line).length ≤ 1 then p2pLoop rest collecting (rowCount + 1) values
      else p2pLoop rest collecting (rowCount + 1) (values ++ p2pRow rowCount ((splitWS line).drop 1))
    else p2pLoop rest collecting rowCount values

/-- `parse_p2p` embedded from the source. -/
def parse_p2p (output : String) : ℚ :=
  minOrZero (p2pLoop (splitlines output) false 0 [])

/-- Is the line a data row while collecting: non-blank, and its first
whitespace-separated token is all decimal digits? -/
def p2pDataRow (line : String) : Bool :=
  !(pyStrip line == "") && pyIsDigitStr ((splitWS line).headD "")

/-- The lines the loop examines before breaking: the prefix up to (excluding)
the first line that contains the end literal without the begin literal (the
begin literal is checked first in the source). -/
def p2pStopped (lines : List String) : List String :=
  lines.takeWhile (fun l => hasSubStr l p2pBeginLit || !hasSubStr l p2pEndLit)

/-- Claim-side collection as the claim words it: row indices are positions
among the data rows following the FIRST begin line, never reset. -/
def p2pClaimSeg : List String → Nat → List ℚ
  | [], _ => []
  | l :: rest, k =>
    if p2pDataRow l then p2pRow k ((splitWS l).drop 1) ++ p2pClaimSeg rest (k + 1)
    else p2pClaimSeg rest k

/-- The values the claim describes: scanning terminates at any line containing
the end literal, collection starts after the first line containing the begin
literal, and row indices are 0-based positions into the collected rows. -/
def p2pClaimValues (output : String) : List ℚ :=
  match ((splitlines output).takeWhile (fun l => !hasSubStr l p2pEndLit)).dropWhile
      (fun l => !hasSubStr l p2pBeginLit) with
  | [] => []
  | _ :: after => p2pClaimSeg after 0

/-- Amended collection: every line containing the begin literal resets the row
counter to 0 (collection restarts), matching the source. -/
def p2pSegValues : List String → Nat → List ℚ
  | [], _ => []
  | l :: rest, k =>
    if hasSubStr l p2pBeginLit then p2pSegValues rest 0
    else if p2pDataRow l then p2pRow k ((splitWS l).drop 1) ++ p2pSegValues rest (k + 1)
    else p2pSegValues rest k

/-- The values `parse_p2p` retains from a line list, described
compositionally: cut at the terminator, drop everything up to and including
the first begin line, then collect segment-wise. -/
def p2pAmendedLines (lines : List String) : List ℚ :=
  match (p2pStopped lines).dropWhile (fun l => !hasSubStr l p2pBeginLit) with
  | [] => []
  | _ :: after => p2pSegValues after 0

/-- The values `parse_p2p` retains, described compositionally. -/
def p2pAmendedValues (output : String) : List ℚ :=
  p2pAmendedLines (splitlines output)

/- ---------------------------------------------------------------------------
Remote command results and the per-test engine functions
(src/baremetal_server.py: SSHCommandResult, _run_nvbandwidth, _run_ib_check).
--------------------------------------------------------------------------- -/

/-- The observable part of `SSHCommandResult` the engine reads. -/
structure SSHRes where
  exitCode : Int
  stdout : String
  stderr : String
deriving DecidableEq

/-- The record `_run_nvbandwidth` returns on its non-exception path. -/
structure BwRecord where
  status : String
  value : ℚ
  unit : String
  benchmark : Option ℚ
  passed : Bool
  h2d : ℚ
  d2h : ℚ
deriving DecidableEq

/-- Outcome of `_run_nvbandwidth`: the result dict, or the
`{"status": "error", "message": …}` dict produced by the except-handler. -/
inductive BwOutcome where
  | ok (r : BwRecord)
  | error (message : String)
deriving DecidableEq

/-- The pass rule of the numeric tests:
`passed = benchmark is None or value >= benchmark`. -/
def benchPass (benchmark : Option ℚ) (value : ℚ) : Bool :=
  match benchmark with
  | none => true
  | some b => decide (b ≤ value)

/-- `_run_nvbandwidth` (src/baremetal_server.py:582-617) as a function of the
two command results and the `bw` benchmark looked up for the node's GPU type.
The upload step is assumed to succeed (an upload failure takes the same
except-handler to `error` before either command runs). -/
def run_nvbandwidth (h2d d2h : SSHRes) (benchmark : Option ℚ) : BwOutcome :=
  if h2d.exitCode ≠ 0 ∨ d2h.exitCode ≠ 0 then
    .error "nvbandwidth命令执行失败"
  else
    let h2dValue := parse_nvbandwidth h2d.stdout
    let d2hValue := parse_nvbandwidth d2h.stdout
    let validValues := [h2dValue, d2hValue].filter (fun v => decide (0 < v))
    if validValues.isEmpty then .error "nvbandwidth未解析到有效结果"
    else
      let value := minOrZero validValues
      let passed : Bool := benchPass benchmark value
      .ok { status := if passed then "passed" else "failed",
            value := value,
            unit := "GB/s", benchmark := benchmark, passed := passed,
            h2d := h2dValue, d2h := d2hValue }

/-- The sentinel literal of the IB health check. -/
def ibSentinel : String := "通过模块: 10/10"

/-- The record `_run_ib_check` returns on its non-exception path. -/
structure IbRecord where
  status : String
  passed : Bool
  rawOutput : String
deriving DecidableEq

/-- `_run_ib_check` (src/baremetal_server.py:770-795) as a function of the
script's command result: `passed` demands exit code 0 plus the sentinel, the
follow-up statement re-promotes the status to `passed` whenever the sentinel
is present regardless of the exit code. -/
def run_ib_check (res : SSHRes) : IbRecord :=
  let output := res.stdout ++ res.stderr
  let passed : Bool := decide (res.exitCode = 0) && hasSubStr output ibSentinel
  let status := if passed then "passed" else "failed"
  let status2 := if !passed && hasSubStr output ibSentinel then "passed" else status
  { status := status2,
    passed := status2 == "passed",
    rawOutput := if !(pyStrip output == "") then pyStrip output
                 else if !(res.stderr == "") then res.stderr else res.stdout }

/- ---------------------------------------------------------------------------
RemoteNodeRunner.execute (src/baremetal_server.py:440-563).
--------------------------------------------------------------------------- -/

/-- The per-test result dict as `execute` consumes it: only the `status` field
feeds the overall verdict. -/
structure TestRes where
  status : String
deriving DecidableEq

/-- Per-node outcome of `execute`. -/
structure NodeOutcome where
  results : List (String × TestRes)
  overallStatus : String
deriving DecidableEq

/-- The results dict `execute` builds: each recognised kind is run iff it is a
member of the job's `tests` list, in the source's fixed dispatch order. The
engine is a parameter mapping each kind to the result its `_run_*` function
produces on this node. -/
def selectedResults (tests : List String) (engine : String → TestRes) :
    List (String × TestRes) :=
  let r0 : List (String × TestRes) := []
  let r1 := if "nvbandwidth" ∈ tests then r0 ++ [("nvbandwidth", engine "nvbandwidth")] else r0
  let r2 := if "p2p" ∈ tests then r1 ++ [("p2p", engine "p2p")] else r1
  let r3 := if "nccl" ∈ tests then r2 ++ [("nccl", engine "nccl")] else r2
  let r4 := if "dcgm" ∈ tests then r3 ++ [("dcgm", engine "dcgm")] else r3
  if "ib" ∈ tests then r4 ++ [("ib", engine "ib")] else r4

/-- The overall verdict expression of `execute`:
`all(res.get("status") in ("passed", "skipped") for res in results.values())`. -/
def overallOf (rs : List (String × TestRes)) : String :=
  if rs.all (fun kv => kv.2.status == "passed" || kv.2.status == "skipped") then "passed"
  else "failed"

/-- `RemoteNodeRunner.execute` on a run where the SSH session and GPU
discovery succeed (their failure is the runner's exception path, outside the
claims below). The cancel latch is monotone and is modelled by its value over
the run: the source re-checks it before the session, after it, before each
test and after all tests, so a latch that is raised at any point yields the
`cancelled` outcome at the first check it reaches, and a latch that is never
raised makes every check pass; with the value held constant the later checks
collapse into the first and last ones written here. -/
def executeTests (cancelled : Bool) (tests : List String) (engine : String → TestRes) :
    NodeOutcome :=
  if cancelled then { results := [], overallStatus := "cancelled" }
  else
    let rs := selectedResults tests engine
    if cancelled then { results := rs, overallStatus := "cancelled" }
    else { results := rs, overallStatus := overallOf rs }

/- ---------------------------------------------------------------------------
Job store: sanitize_job, run_job's final aggregation, api_create_job,
api_stop_job (src/baremetal_server.py:806-828, 919-939, 1218-1270, 1803-1853).
--------------------------------------------------------------------------- -/

/-- A JSON-ish value as stored in a job dict: strings, integers, booleans, the
`threading.Event` cancel latch, nested dicts and arrays. -/
inductive JVal where
  | s (v : String)
  | i (v : Int)
  | b (v : Bool)
  | event (isSet : Bool)
  | dict (fields : List (String × JVal))
  | arr (items : List JVal)

/-- The per-node copy `sanitize_job` builds: every key except `_connection`. -/
def stripNode (node : JVal) : JVal :=
  match node with
  | .dict fields => .dict (fields.filter (fun kv => !(kv.1 == "_connection")))
  | v => v

/-- `sanitize_job`: the `cancelled` entry has a `threading.Event` rendered as
its boolean, the `nodes` entry has `_connection` dropped from each node dict,
every other entry is copied unchanged. -/
def sanitize_job (job : List (String × JVal)) : List (String × JVal) :=
  job.map (fun kv =>
    if kv.1 == "cancelled" then
      (kv.1, match kv.2 with
             | .event b => .b b
             | v => v)
    else if kv.1 == "nodes" then
      (kv.1, match kv.2 with
             | .arr ns => .arr (ns.map stripNode)
             | v => v)
    else kv)

/-- The final status assignment at the end of `run_job`: `cancelled` when the
latch is raised, else `completed` iff every node ended `passed`, else
`failed`. -/
def jobFinalStatus (cancelled : Bool) (nodeStatuses : List String) : String :=
  if cancelled then "cancelled"
  else if nodeStatuses.all (fun s => s == "passed") then "completed"
  else "failed"

/-- The auth dict of a node payload. -/
structure AuthPayload where
  typ : String
  value : String
deriving DecidableEq

/-- One entry of the `nodes` list of a create-job request. -/
structure NodePayload where
  host : String
  port : Int
  username : String
  auth : Option AuthPayload
  sudoPassword : Option String
deriving DecidableEq

/-- `ensure_payload_fields(node, ["host", "username", "auth"])` plus the auth
check of `api_create_job`: host and username present and non-empty, auth a
dict whose `type` is truthy. -/
def nodeFieldsOk (p : NodePayload) : Bool :=
  !(p.host == "") && !(p.username == "") &&
    (match p.auth with
     | none => false
     | some a => !(a.typ == ""))

/-- The job record `api_create_job` materialises (the fields the claims
read). -/
structure CreatedJob where
  jobId : String
  status : String
  tests : List String
  dcgmLevel : Int
  cancelled : Bool
  nodes : List NodePayload
deriving DecidableEq

/-- `api_create_job` (src/baremetal_server.py:1218-1270) on an already-parsed
payload: empty `nodes` or empty `tests` is a validation error, each node must
carry host/username/auth, the test kinds themselves are never validated; the
job starts `pending` with the latch cleared. -/
def api_create_job (nodesPayload : List NodePayload) (tests : List String)
    (dcgmLevel : Int) (jobId : String) : Except String CreatedJob :=
  if nodesPayload.isEmpty then .error "nodes不能为空"
  else if tests.isEmpty then .error "tests不能为空"
  else if nodesPayload.all nodeFieldsOk then
    .ok { jobId := jobId, status := "pending", tests := tests,
          dcgmLevel := dcgmLevel, cancelled := false, nodes := nodesPayload }
  else .error "节点缺少有效的认证信息"

/-- A node record as `api_stop_job` mutates it. -/
structure NodeRec where
  status : String
  completedAt : Option String
deriving DecidableEq

/-- A job record as `api_stop_job` mutates it. -/
structure JobRec where
  status : String
  cancelled : Bool
  updatedAt : String
  nodes : List NodeRec
deriving DecidableEq

/-- The node transition of the stop handler: a node in the given status is
set to `cancelled`, and `completedAt` is set to now when it is missing or
empty (Python tests its truthiness). -/
def stopNode (st now : String) (n : NodeRec) : NodeRec :=
  if n.status == st then
    { n with status := "cancelled",
             completedAt := if n.completedAt.getD "" == "" then some now else n.completedAt }
  else n

/-- `api_stop_job` (src/baremetal_server.py:1803-1853): outside
{pending, running, cancelling} it is an error without mutation; otherwise the
latch is raised, then a `running` job goes to `cancelled` with its `running`
nodes cancelled, a `cancelling` job goes to `cancelled` with its `cancelling`
nodes cancelled, and a `pending` job goes to `cancelling` with its nodes
untouched. -/
def stop_job (job : JobRec) (now : String) : Except String JobRec :=
  if job.status == "pending" || job.status == "running" || job.status == "cancelling" then
    let job1 := { job with cancelled := true }
    if job1.status == "running" then
      .ok { job1 with
            status := "cancelled", updatedAt := now,
            nodes := job1.nodes.map (stopNode "running" now) }
    else if job1.status == "cancelling" then
      .ok { job1 with
            status := "cancelled", updatedAt := now,
            nodes := job1.nodes.map (stopNode "cancelling" now) }
    else
      .ok { job1 with status := "cancelling", updatedAt := now }
  else
    .error ("任务状态为 " ++ job.status ++ "，无法停止")

/- ---------------------------------------------------------------------------
Artifact ingester (src/ghx_server.py: is_manual_file_processed 1550-1584,
save_manual_diagnostic_result 1598-1683).
--------------------------------------------------------------------------- -/

/-- A value bound to an SQL placeholder. -/
inductive SQLVal where
  | s (v : String)
  | i (n : Int)
  | b (v : Bool)
deriving DecidableEq

/-- A `diagnostic_results` row: the (job_id, node_name) key, the two
timestamps the claims reason about, and the remaining columns as the bound
values. -/
structure DiagRow where
  job_id : String
  node_name : String
  created_at : String
  updated_at : Option String
  fields : List SQLVal
deriving DecidableEq

/-- A manual artifact as `save_manual_diagnostic_result` reads it: the
mandatory fields, the `.get` defaults applied, with the JSON-serialised
payloads kept opaque. `dcgm_result`/`ib_result` stand for
`test_results.get("dcgm", "Skipped")` / `test_results.get("ib", "Skipped")`. -/
structure ManualData where
  job_id : String
  node_name : String
  gpu_type : String
  enabled_tests_json : String
  dcgm_level : Int
  test_results_json : String
  dcgm_result : String
  ib_result : String
  performance_pass : Bool
  execution_time : String
  execution_log : String
  benchmark_json : String
deriving DecidableEq

/-- `health_pass`: DCGM and IB both `Pass` or `Skipped`. -/
def manual_health_pass (d : ManualData) : Bool :=
  (d.dcgm_result == "Pass" || d.dcgm_result == "Skipped") &&
    (d.ib_result == "Pass" || d.ib_result == "Skipped")

/-- `inspection_result`: `Pass` iff `performance_pass` and `health_pass`. -/
def manual_inspection_result (d : ManualData) : String :=
  if d.performance_pass && manual_health_pass d then "Pass" else "No Pass"

/-- The columns the UPDATE statement of `save_manual_diagnostic_result` binds
by placeholder, in statement order; `updated_at` is assigned the SQL
expression datetime(now, localtime) and takes no placeholder. -/
def updateSetColumns : List String :=
  ["job_type", "gpu_type", "enabled_tests", "dcgm_level", "inspection_result",
   "performance_pass", "health_pass", "execution_time", "execution_log",
   "benchmark_data", "test_results", "expires_at"]

/-- The placeholders of the UPDATE's WHERE clause. -/
def updateWhereColumns : List String := ["job_id", "node_name"]

/-- Number of `?` placeholders in the UPDATE statement. -/
def updatePlaceholderCount : Nat := updateSetColumns.length + updateWhereColumns.length

/-- The parameter tuple passed with the UPDATE, in source order. -/
def updateParams (d : ManualData) (expires : String) : List SQLVal :=
  [.s "manual", .s d.node_name, .s d.gpu_type, .s d.enabled_tests_json,
   .i d.dcgm_level, .s (manual_inspection_result d), .b d.performance_pass,
   .b (manual_health_pass d), .s d.execution_time, .s d.execution_log,
   .s d.benchmark_json, .s d.test_results_json, .s expires,
   .s d.job_id, .s d.node_name]

/-- The columns of the INSERT statement, in statement order; `created_at` is
assigned the datetime expression and takes no placeholder. -/
def insertColumns : List String :=
  ["job_id", "job_type", "node_name", "gpu_type", "enabled_tests", "dcgm_level",
   "inspection_result", "performance_pass", "health_pass", "execution_time",
   "execution_log", "benchmark_data", "test_results", "expires_at", "created_at"]

/-- Number of `?` placeholders in the INSERT statement. -/
def insertPlaceholderCount : Nat := insertColumns.length - 1

/-- The parameter tuple passed with the INSERT, in source order. -/
def insertParams (d : ManualData) (expires : String) : List SQLVal :=
  [.s d.job_id, .s "manual", .s d.node_name, .s d.gpu_type, .s d.enabled_tests_json,
   .i d.dcgm_level, .s (manual_inspection_result d), .b d.performance_pass,
   .b (manual_health_pass d), .s d.execution_time, .s d.execution_log,
   .s d.benchmark_json, .s d.test_results_json, .s expires]

/-- The error sqlite3 raises when the number of supplied bindings differs
from the number of placeholders in the statement (the function's
except-handler re-raises it, so ingestion of the file fails). -/
def bindingError : String := "Incorrect number of bindings supplied"

/-- `save_manual_diagnostic_result` over the `diagnostic_results` table (the
companion UPDATE of `diagnostic_jobs` is not reached when the first execute
raises, and is outside the claims). A `cursor.execute` first checks that the
supplied bindings match the statement's placeholders. -/
def save_manual_diagnostic_result (d : ManualData) (now expires : String)
    (db : List DiagRow) : Except String (List DiagRow) :=
  if db.any (fun r => r.job_id == d.job_id && r.node_name == d.node_name) then
    if (updateParams d expires).length = updatePlaceholderCount then
      .ok (db.map (fun r =>
        if r.job_id == d.job_id && r.node_name == d.node_name then
          { r with
            updated_at := some now,
            fields := (updateParams d expires).take updateSetColumns.length }
        else r))
    else .error bindingError
  else
    if (insertParams d expires).length = insertPlaceholderCount then
      .ok (db ++ [{ job_id := d.job_id, node_name := d.node_name,
                    created_at := now,
                    updated_at := none, fields := insertParams d expires }])
    else .error bindingError

/-- Helper for `splitOnChar`. -/
def splitOnCharAux (sep : Char) : List Char → List Char → List String
  | [], cur => [String.mk cur.reverse]
  | c :: rest, cur =>
    if c == sep then String.mk cur.reverse :: splitOnCharAux sep rest []
    else splitOnCharAux sep rest (c :: cur)

/-- Python `s.split(sep)` for a single-character separator. -/
def splitOnChar (s : String) (sep : Char) : List String := splitOnCharAux sep s.toList []

/-- `os.path.basename` for slash-separated paths. -/
def basename (path : String) : String := (splitOnChar path '/').getLastD ""

/-- Python `str.replace` over character lists, replacing every
non-overlapping, leftmost-first occurrence of a non-empty needle. The fuel
argument (instantiated with the list's length, an upper bound on the number
of steps, so it never runs out) keeps the recursion structural. -/
def replaceListAux (needle repl : List Char) : Nat → List Char → List Char
  | _, [] => []
  | 0, l => l
  | fuel + 1, c :: rest =>
    if needle ≠ [] ∧ leadsWith needle (c :: rest) = true then
      repl ++ replaceListAux needle repl fuel ((c :: rest).drop needle.length)
    else
      c :: replaceListAux needle repl fuel rest

/-- Python `s.replace(needle, repl)` for non-empty needles. -/
def pyReplace (s needle repl : String) : String :=
  String.mk (replaceListAux needle.toList repl.toList s.toList.length s.toList)

/-- `is_manual_file_processed` (src/ghx_server.py:1550-1584): a
`<node>_latest.json` file is processed iff any row exists for that node name;
any other file has a job id reconstructed as the first two `-`-separated
segments of the filename and is processed iff any row has that job id (the
node name is not consulted); with fewer than two segments the IndexError is
caught and the file counts as unprocessed. -/
def is_manual_file_processed (db : List DiagRow) (file_path : String) : Bool :=
  let filename := basename file_path
  if hasSubStr filename "_latest.json" then
    let node_name := pyReplace filename "_latest.json" ""
    db.any (fun r => r.node_name == node_name)
  else
    match splitOnChar (pyReplace filename ".json" "") '-' with
    | s0 :: s1 :: _ =>
      db.any (fun r => r.job_id == (s0 ++ "-" ++ s1))
    | _ => false

/- ---------------------------------------------------------------------------
Concrete inputs used by counterexamples and witnesses.
--------------------------------------------------------------------------- -/

/-- A p2p output whose begin literal occurs twice: the second occurrence
resets the source's row counter, while the claim's reading keeps counting. -/
def p2pTwoBeginInput : String :=
  "Bidirectional P2P=Enabled Bandwidth Matrix\n0 9 9\nBidirectional P2P=Enabled Bandwidth Matrix\n0 3 8"

/-- An h2d command result whose stdout parses to no value (0). -/
def h2dZeroRes : SSHRes := { exitCode := 0, stdout := "", stderr := "" }

/-- A d2h command result whose stdout parses to 50 GB/s. -/
def d2hFiftyRes : SSHRes := { exitCode := 0, stdout := "0 50.0", stderr := "" }

/-- A store holding one row for job `manual-j1` on node `node1`. -/
def exJ1Db : List DiagRow :=
  [{ job_id := "manual-j1", node_name := "node1", created_at := "t0",
     updated_at := none, fields := [] }]

/- ---------------------------------------------------------------------------
Helper lemmas.
--------------------------------------------------------------------------- -/

theorem foldl_min_mem (vs : List ℚ) : ∀ v : ℚ, vs.foldl min v ∈ v :: vs := by
  induction vs with
  | nil => intro v; simp
  | cons y ys ih =>
    intro v
    have h := ih (min v y)
    simp only [List.foldl_cons]
    rcases List.mem_cons.mp h with h1 | h1
    · rcases min_choice v y with hm | hm
      · rw [h1, hm]; exact List.mem_cons_self _ _
      · rw [h1, hm]; exact List.mem_cons_of_mem _ (List.mem_cons_self _ _)
    · exact List.mem_cons_of_mem _ (List.mem_cons_of_mem _ h1)

theorem minOrZero_zero_or_mem (l : List ℚ) : minOrZero l = 0 ∨ minOrZero l ∈ l := by
  cases l with
  | nil => left; rfl
  | cons v vs =>
    right
    simpa [minOrZero] using foldl_min_mem vs v

theorem nvbChunks_eq (chunks : List String) : ∀ values : List ℚ,
    nvbChunks chunks values =
      values ++ ((chunks.takeWhile (fun t => (pyFloat t).isSome)).filterMap pyFloat).filter bwInRange := by
  induction chunks with
  | nil => intro values; simp [nvbChunks]
  | cons c rest ih =>
    intro values
    cases h : pyFloat c with
    | none => simp [nvbChunks, h, List.takeWhile_cons]
    | some v =>
      by_cases hr : bwInRange v
      · simp [nvbChunks, h, hr, List.takeWhile_cons, ih, List.filterMap_cons]
      · simp [nvbChunks, h, hr, List.takeWhile_cons, ih, List.filterMap_cons]

theorem nvbLines_eq (lines : List String) : ∀ values : List ℚ,
    nvbLines lines values = values ++ lines.flatMap nvbLineAccepted := by
  induction lines with
  | nil => intro values; simp [nvbLines]
  | cons line rest ih =>
    intro values
    by_cases h0 : pyStrip line == ""
    · have he : pyStrip line = "" := eq_of_beq h0
      have hd : firstCharDigit (pyStrip line) = false := by rw [he]; rfl
      simp [nvbLines, h0, nvbLineAccepted, hd, ih]
    · by_cases hd : firstCharDigit (pyStrip line)
      · simp [nvbLines, h0, hd, nvbLineAccepted, ih, nvbChunks_eq, List.append_assoc]
      · simp [nvbLines, h0, hd, nvbLineAccepted, ih]

/-- C3: `parse_nvbandwidth` agrees with the claim's description (digit-led
lines, tokens from the second onward up to the first unparseable one, values
kept iff in the inclusive range [10, 1200], minimum of the kept values, 0
when none), and its result is always 0 or in [10, 1200]. -/
theorem parse_nvbandwidth_claim_spec (output : String) :
    parse_nvbandwidth output = minOrZero (nvbClaimValues output) ∧
    (parse_nvbandwidth output = 0 ∨
      (10 ≤ parse_nvbandwidth output ∧ parse_nvbandwidth output ≤ 1200)) := by
  have he : parse_nvbandwidth output = minOrZero (nvbClaimValues output) := by
    unfold parse_nvbandwidth nvbClaimValues
    rw [nvbLines_eq]
    simp
  refine ⟨he, ?_⟩
  rcases minOrZero_zero_or_mem (nvbClaimValues output) with h | h
  · left; rw [he, h]
  · right
    rw [he]
    rcases List.mem_flatMap.mp h with ⟨line, _, hv⟩
    unfold nvbLineAccepted at hv
    split at hv
    · exact of_decide_eq_true (List.mem_filter.mp hv).2
    · simp at hv

theorem p2pRow_nil (k : Nat) : p2pRow k [] = [] := rfl

theorem p2pLoop_collecting (lines : List String) : ∀ (k : Nat) (values : List ℚ),
    p2pLoop lines true k values = values ++ p2pSegValues (p2pStopped lines) k := by
  induction lines with
  | nil => intro k values; simp [p2pLoop, p2pStopped, p2pSegValues]
  | cons l rest ih =>
    intro k values
    cases hb : hasSubStr l p2pBeginLit with
    | true =>
      simp [p2pLoop, hb, p2pStopped, List.takeWhile_cons, p2pSegValues, ih]
    | false =>
      cases he : hasSubStr l p2pEndLit with
      | true => simp [p2pLoop, hb, he, p2pStopped, List.takeWhile_cons, p2pSegValues]
      | false =>
        by_cases hs : pyStrip l == ""
        · have hd : p2pDataRow l = false := by simp [p2pDataRow, hs]
          simp [p2pLoop, hb, he, hs, p2pStopped, List.takeWhile_cons, p2pSegValues, hd, ih]
        · by_cases hg : pyIsDigitStr ((splitWS l).head?.getD "") = true
          · have hd : p2pDataRow l = true := by
              simp [p2pDataRow, List.headD_eq_head?_getD, hs, hg]
            by_cases hl : (splitWS l).length ≤ 1
            · have hz : (splitWS l).drop 1 = [] := List.drop_eq_nil_of_le hl
              simp [p2pLoop, hb, he, hs, hg, hl, p2pStopped, List.takeWhile_cons,
                p2pSegValues, hd, hz, p2pRow_nil, ih]
            · simp [p2pLoop, hb, he, hs, hg, hl, p2pStopped, List.takeWhile_cons,
                p2pSegValues, hd, ih, List.append_assoc]
          · have hg2 : pyIsDigitStr ((splitWS l).head?.getD "") = false :=
              Bool.eq_false_iff.mpr hg
            have hd : p2pDataRow l = false := by
              simp [p2pDataRow, List.headD_eq_head?_getD, hs, hg2]
            simp [p2pLoop, hb, he, hs, hg2, p2pStopped, List.takeWhile_cons, p2pSegValues,
              hd, ih]

theorem p2pLoop_idle (lines : List String) :
    p2pLoop lines false 0 [] = p2pAmendedLines lines := by
  induction lines with
  | nil => simp [p2pLoop, p2pAmendedLines, p2pStopped]
  | cons l rest ih =>
    cases hb : hasSubStr l p2pBeginLit with
    | true =>
      simp [p2pLoop, hb, p2pAmendedLines, p2pStopped, List.takeWhile_cons, List.dropWhile_cons]
      exact p2pLoop_collecting rest 0 []
    | false =>
      cases he : hasSubStr l p2pEndLit with
      | true => simp [p2pLoop, hb, he, p2pAmendedLines, p2pStopped, List.takeWhile_cons]
      | false =>
        simp [p2pLoop, hb, he, p2pAmendedLines, p2pStopped, List.takeWhile_cons,
          List.dropWhile_cons] at ih ⊢
        exact ih

/-- C4 counterexample: on an output where the begin literal occurs twice, the
source's value (the row counter resets at the second begin line, keeping 8
off-diagonal) differs from the claim's described value (row indices keep
counting across the collected rows, keeping 3 off-diagonal). -/
theorem parse_p2p_claim_counterexample :
    parse_p2p p2pTwoBeginInput = 8 ∧ minOrZero (p2pClaimValues p2pTwoBeginInput) = 3 := by
  constructor <;> decide

/-- C4 amended: `parse_p2p` returns the minimum (0 when none) of the strictly
positive off-diagonal values collected from digit-led rows after a begin
line, where EVERY line containing the begin literal resets the 0-based row
counter, scanning stopping at the first line that contains the end literal
without the begin literal. -/
theorem parse_p2p_amended_spec (output : String) :
    parse_p2p output = minOrZero (p2pAmendedValues output) := by
  unfold parse_p2p p2pAmendedValues
  rw [p2pLoop_idle]

theorem overallOf_spec (rs : List (String × TestRes)) :
    (overallOf rs = "passed" ↔ ∀ kv ∈ rs, kv.2.status = "passed" ∨ kv.2.status = "skipped") ∧
    ∀ kv ∈ rs, (kv.2.status = "error" ∨ kv.2.status = "failed") → overallOf rs = "failed" := by
  constructor
  · unfold overallOf
    split
    · rename_i h
      simp only [List.all_eq_true] at h
      refine ⟨fun _ kv hkv => ?_, fun _ => rfl⟩
      have hx := h kv hkv
      simpa using hx
    · rename_i h
      refine ⟨fun hcon => absurd hcon (by decide), fun hall => absurd ?_ h⟩
      simp only [List.all_eq_true]
      intro kv hkv
      rcases hall kv hkv with h1 | h1 <;> simp [h1]
  · intro kv hkv hk
    unfold overallOf
    split
    · rename_i h
      exfalso
      simp only [List.all_eq_true] at h
      have hx := h kv hkv
      rcases hk with h1 | h1 <;> simp [h1] at hx
    · rfl

/-- C1: with the cancel latch never raised, the overall status the runner
computes after the selected tests is `passed` iff every test result in the
node's results map has status `passed` or `skipped`; any result whose status
is `error` or `failed` makes it `failed`. -/
theorem executeTests_passed_iff (tests : List String) (engine : String → TestRes) :
    ((executeTests false tests engine).overallStatus = "passed" ↔
      ∀ kv ∈ (executeTests false tests engine).results,
        kv.2.status = "passed" ∨ kv.2.status = "skipped") ∧
    ∀ kv ∈ (executeTests false tests engine).results,
      (kv.2.status = "error" ∨ kv.2.status = "failed") →
        (executeTests false tests engine).overallStatus = "failed" :=
  overallOf_spec (selectedResults tests engine)

/-- C2: the IB test result's status is `passed` iff the sentinel literal
occurs in the combined stdout+stderr, regardless of the exit code. -/
theorem run_ib_check_passed_iff (res : SSHRes) :
    (run_ib_check res).status = "passed" ↔
      hasSubStr (res.stdout ++ res.stderr) ibSentinel = true := by
  cases hs : hasSubStr (res.stdout ++ res.stderr) ibSentinel with
  | true =>
    by_cases he : res.exitCode = 0
    · simp [run_ib_check, hs, he]
    · simp [run_ib_check, hs, he]
  | false => simp [run_ib_check, hs]

/-- C5 counterexample: both commands exit 0; h2d parses to 0, d2h to 50, so
exactly one parsed value is positive. The source reports value 50 (the
minimum over the positive values only), while the claim's
`min(h2dValue, d2hValue)` is 0. -/
theorem run_nvbandwidth_min_counterexample :
    run_nvbandwidth h2dZeroRes d2hFiftyRes none =
      .ok { status := "passed", value := 50, unit := "GB/s", benchmark := none,
            passed := true, h2d := 0, d2h := 50 } ∧
    min (parse_nvbandwidth h2dZeroRes.stdout) (parse_nvbandwidth d2hFiftyRes.stdout) = 0 := by
  constructor <;> decide

/-- C5 amended: when both commands exit 0 and at least one parsed value is
positive, the reported result carries value = the minimum of the positive
parsed values (equal to `min(h2dValue, d2hValue)` when both are positive),
unit GB/s, both per-direction details, the looked-up benchmark, and status
`passed` iff the benchmark is absent or value ≥ benchmark. -/
theorem run_nvbandwidth_amended_spec (h2d d2h : SSHRes) (bm : Option ℚ)
    (hh : h2d.exitCode = 0) (hd : d2h.exitCode = 0)
    (hp : 0 < parse_nvbandwidth h2d.stdout ∨ 0 < parse_nvbandwidth d2h.stdout) :
    ∃ r : BwRecord, run_nvbandwidth h2d d2h bm = .ok r ∧
      r.value = (if 0 < parse_nvbandwidth h2d.stdout then
                   if 0 < parse_nvbandwidth d2h.stdout then
                     min (parse_nvbandwidth h2d.stdout) (parse_nvbandwidth d2h.stdout)
                   else parse_nvbandwidth h2d.stdout
                 else parse_nvbandwidth d2h.stdout) ∧
      r.unit = "GB/s" ∧
      r.h2d = parse_nvbandwidth h2d.stdout ∧ r.d2h = parse_nvbandwidth d2h.stdout ∧
      r.benchmark = bm ∧
      (r.status = "passed" ↔ (bm = none ∨ ∃ b, bm = some b ∧ b ≤ r.value)) := by
  have hstatus : ∀ v : ℚ, ((if benchPass bm v then "passed" else "failed") = "passed" ↔
      (bm = none ∨ ∃ b, bm = some b ∧ b ≤ v)) := by
    intro v
    rcases bm with _ | b
    · simp [benchPass]
    · by_cases hle : b ≤ v
      · simp [benchPass, hle]
      · simp [benchPass, hle]
  by_cases ha : 0 < parse_nvbandwidth h2d.stdout
  · by_cases hb : 0 < parse_nvbandwidth d2h.stdout
    · have hrun : run_nvbandwidth h2d d2h bm = .ok
          { status := if benchPass bm (min (parse_nvbandwidth h2d.stdout)
                        (parse_nvbandwidth d2h.stdout)) then "passed" else "failed",
            value := min (parse_nvbandwidth h2d.stdout) (parse_nvbandwidth d2h.stdout),
            unit := "GB/s", benchmark := bm,
            passed := benchPass bm (min (parse_nvbandwidth h2d.stdout)
                        (parse_nvbandwidth d2h.stdout)),
            h2d := parse_nvbandwidth h2d.stdout, d2h := parse_nvbandwidth d2h.stdout } := by
        simp [run_nvbandwidth, hh, hd, ha, hb, minOrZero]
      exact ⟨_, hrun, by simp [ha, hb], rfl, rfl, rfl, rfl, hstatus _⟩
    · have hrun : run_nvbandwidth h2d d2h bm = .ok
          { status := if benchPass bm (parse_nvbandwidth h2d.stdout) then "passed" else "failed",
            value := parse_nvbandwidth h2d.stdout,
            unit := "GB/s", benchmark := bm,
            passed := benchPass bm (parse_nvbandwidth h2d.stdout),
            h2d := parse_nvbandwidth h2d.stdout, d2h := parse_nvbandwidth d2h.stdout } := by
        simp [run_nvbandwidth, hh, hd, ha, hb, minOrZero]
      exact ⟨_, hrun, by simp [ha, hb], rfl, rfl, rfl, rfl, hstatus _⟩
  · have hb : 0 < parse_nvbandwidth d2h.stdout := hp.resolve_left ha
    have hrun : run_nvbandwidth h2d d2h bm = .ok
        { status := if benchPass bm (parse_nvbandwidth d2h.stdout) then "passed" else "failed",
          value := parse_nvbandwidth d2h.stdout,
          unit := "GB/s", benchmark := bm,
          passed := benchPass bm (parse_nvbandwidth d2h.stdout),
          h2d := parse_nvbandwidth h2d.stdout, d2h := parse_nvbandwidth d2h.stdout } := by
      simp [run_nvbandwidth, hh, hd, ha, hb, minOrZero]
    exact ⟨_, hrun, by simp [ha], rfl, rfl, rfl, rfl, hstatus _⟩

/-- C5 witness: the amended statement instantiated at two concrete command
results (h2d parses to 50, d2h to 0) with no benchmark. -/
theorem run_nvbandwidth_amended_spec_witness :
    ∃ r : BwRecord, run_nvbandwidth d2hFiftyRes h2dZeroRes none = .ok r ∧
      r.value = (if 0 < parse_nvbandwidth d2hFiftyRes.stdout then
                   if 0 < parse_nvbandwidth h2dZeroRes.stdout then
                     min (parse_nvbandwidth d2hFiftyRes.stdout) (parse_nvbandwidth h2dZeroRes.stdout)
                   else parse_nvbandwidth d2hFiftyRes.stdout
                 else parse_nvbandwidth h2dZeroRes.stdout) ∧
      r.unit = "GB/s" ∧
      r.h2d = parse_nvbandwidth d2hFiftyRes.stdout ∧
      r.d2h = parse_nvbandwidth h2dZeroRes.stdout ∧
      r.benchmark = (none : Option ℚ) ∧
      (r.status = "passed" ↔ ((none : Option ℚ) = none ∨
        ∃ b, (none : Option ℚ) = some b ∧ b ≤ r.value)) :=
  run_nvbandwidth_amended_spec d2hFiftyRes h2dZeroRes none rfl rfl (Or.inl (by decide))

/-- C6: the UPDATE branch of `save_manual_diagnostic_result` supplies one
binding more (15, the extra `node_name` in second position) than the
statement has placeholders (14), so whenever a row for the artifact's
(job_id, node_name) already exists, re-ingestion raises instead of updating
the row in place. -/
theorem save_manual_update_binding_mismatch (d : ManualData) (now expires : String)
    (db : List DiagRow) :
    (updateParams d expires).length = updatePlaceholderCount + 1 ∧
    ((∃ r ∈ db, r.job_id = d.job_id ∧ r.node_name = d.node_name) →
      save_manual_diagnostic_result d now expires db = .error bindingError) := by
  constructor
  · rfl
  · intro hex
    have hany : db.any (fun r => r.job_id == d.job_id && r.node_name == d.node_name) = true := by
      rcases hex with ⟨r, hr, h1, h2⟩
      exact List.any_eq_true.mpr ⟨r, hr, by simp [h1, h2]⟩
    have hlen : ¬((updateParams d expires).length = updatePlaceholderCount) := by
      simp [updateParams, updatePlaceholderCount, updateSetColumns, updateWhereColumns]
    simp [save_manual_diagnostic_result, hany, hlen]

/-- C7 counterexample: stopping a `pending` job sets its status to
`cancelling`, not `cancelled`; stopping a `running` job leaves a node that is
still `pending` (a non-terminal status) untouched instead of cancelling it. -/
theorem stop_job_claim_counterexample :
    stop_job { status := "pending", cancelled := false, updatedAt := "t0",
               nodes := [{ status := "pending", completedAt := none }] } "t1" =
      .ok { status := "cancelling", cancelled := true, updatedAt := "t1",
            nodes := [{ status := "pending", completedAt := none }] } ∧
    stop_job { status := "running", cancelled := false, updatedAt := "t0",
               nodes := [{ status := "pending", completedAt := none }] } "t1" =
      .ok { status := "cancelled", cancelled := true, updatedAt := "t1",
            nodes := [{ status := "pending", completedAt := none }] } := by
  constructor <;> rfl

/-- C7 amended: Stop raises the latch for a job in {pending, running,
cancelling}; a `running` job goes to `cancelled` and exactly its `running`
nodes are cancelled (completedAt set when empty), a `cancelling` job goes to
`cancelled` and exactly its `cancelling` nodes are cancelled, a `pending` job
goes to `cancelling` with its nodes untouched; any other status is an error
without mutation. -/
theorem stop_job_amended_spec (job : JobRec) (now : String) :
    (job.status = "running" →
      stop_job job now = .ok { job with
        cancelled := true, status := "cancelled", updatedAt := now,
        nodes := job.nodes.map (stopNode "running" now) }) ∧
    (job.status = "cancelling" →
      stop_job job now = .ok { job with
        cancelled := true, status := "cancelled", updatedAt := now,
        nodes := job.nodes.map (stopNode "cancelling" now) }) ∧
    (job.status = "pending" →
      stop_job job now = .ok { job with
        cancelled := true, status := "cancelling", updatedAt := now }) ∧
    (job.status ≠ "pending" ∧ job.status ≠ "running" ∧ job.status ≠ "cancelling" →
      stop_job job now = .error ("任务状态为 " ++ job.status ++ "，无法停止")) := by
  refine ⟨?_, ?_, ?_, ?_⟩
  · intro h; simp [stop_job, h]
  · intro h; simp [stop_job, h]
  · intro h; simp [stop_job, h]
  · rintro ⟨h1, h2, h3⟩; simp [stop_job, h1, h2, h3]

/-- C8 counterexample: the store holds a row (manual-j1, node1); the file
`manual-j1-node2.json` encodes the pair (manual-j1, node2), which matches no
row, yet the source reports it as already ingested because only the job id is
consulted. -/
theorem is_manual_file_processed_counterexample :
    is_manual_file_processed exJ1Db "manual-j1-node2.json" = true ∧
    exJ1Db.any (fun r => r.job_id == "manual-j1" && r.node_name == "node2") = false := by
  constructor <;> decide

/-- C8 amended: a `<node>_latest.json` file counts as ingested iff any row
exists for that node name; any other file counts as ingested iff a row
exists whose job_id equals the first two `-`-separated segments of the
filename joined by `-` (node_name is never consulted); a filename with fewer
than two segments never counts as ingested. -/
theorem is_manual_file_processed_amended_spec (db : List DiagRow) (path : String) :
    (hasSubStr (basename path) "_latest.json" = true →
      (is_manual_file_processed db path = true ↔
        ∃ r ∈ db, r.node_name = pyReplace (basename path) "_latest.json" "")) ∧
    (hasSubStr (basename path) "_latest.json" = false →
      ∀ s0 s1 rest, splitOnChar (pyReplace (basename path) ".json" "") '-' = s0 :: s1 :: rest →
        (is_manual_file_processed db path = true ↔
          ∃ r ∈ db, r.job_id = s0 ++ "-" ++ s1)) ∧
    (hasSubStr (basename path) "_latest.json" = false →
      ∀ s, splitOnChar (pyReplace (basename path) ".json" "") '-' = [s] →
        is_manual_file_processed db path = false) := by
  refine ⟨?_, ?_, ?_⟩
  · intro h
    simp only [is_manual_file_processed, h, if_true]
    rw [List.any_eq_true]
    simp
  · intro h s0 s1 rest hsplit
    simp only [is_manual_file_processed, h, Bool.false_eq_true, if_false]
    rw [hsplit]
    rw [List.any_eq_true]
    simp
  · intro h s hsplit
    simp only [is_manual_file_processed, h, Bool.false_eq_true, if_false]
    rw [hsplit]

theorem stripNode_no_connection (m : JVal) (fields : List (String × JVal))
    (h : stripNode m = JVal.dict fields) : ∀ f ∈ fields, f.1 ≠ "_connection" := by
  cases m with
  | dict g =>
    simp only [stripNode, JVal.dict.injEq] at h
    intro f hf
    have hmem := h ▸ hf
    have := (List.mem_filter.mp hmem).2
    simpa using this
  | s v => simp [stripNode] at h
  | i v => simp [stripNode] at h
  | b v => simp [stripNode] at h
  | event v => simp [stripNode] at h
  | arr items => simp [stripNode] at h

/-- C9: the sanitized job view carries no `_connection` field in any node
dict, and a `threading.Event` cancel latch is rendered as its boolean. -/
theorem sanitize_job_no_connection (job : List (String × JVal)) :
    (∀ kv ∈ sanitize_job job, kv.1 = "nodes" → ∀ ns, kv.2 = JVal.arr ns →
      ∀ nd ∈ ns, ∀ fields, nd = JVal.dict fields → ∀ f ∈ fields, f.1 ≠ "_connection") ∧
    (∀ b : Bool, ("cancelled", JVal.event b) ∈ job →
      ("cancelled", JVal.b b) ∈ sanitize_job job) := by
  constructor
  · intro kv hkv hname ns hns nd hnd fields hfields f hf
    rcases List.mem_map.mp hkv with ⟨orig, horig, heq⟩
    by_cases hc : orig.1 == "cancelled"
    · rw [← heq] at hname
      simp only [hc, if_true] at hname
      rw [eq_of_beq hc] at hname
      exact absurd hname (by decide)
    · by_cases hn : orig.1 == "nodes"
      · rw [← heq] at hns
        simp only [hc, hn, Bool.false_eq_true, if_false, if_true] at hns
        cases ho : orig.2 with
        | arr ms =>
          rw [ho] at hns
          simp only [JVal.arr.injEq] at hns
          rw [← hns] at hnd
          rcases List.mem_map.mp hnd with ⟨m, _, hmeq⟩
          exact stripNode_no_connection m fields (hmeq.trans hfields) f hf
        | s v => rw [ho] at hns; simp at hns
        | i v => rw [ho] at hns; simp at hns
        | b v => rw [ho] at hns; simp at hns
        | event v => rw [ho] at hns; simp at hns
        | dict g => rw [ho] at hns; simp at hns
      · rw [← heq] at hname hns
        simp only [hc, hn, Bool.false_eq_true, if_false] at hname hns
        rw [hname] at hn
        simp at hn
  · intro b hb
    have hmem := List.mem_map_of_mem (fun kv : String × JVal =>
      if kv.1 == "cancelled" then
        (kv.1, match kv.2 with
               | .event bb => JVal.b bb
               | v => v)
      else if kv.1 == "nodes" then
        (kv.1, match kv.2 with
               | .arr ns => JVal.arr (ns.map stripNode)
               | v => v)
      else kv) hb
    simpa [sanitize_job] using hmem

/-- C10: a job whose tests list is non-empty but contains none of the five
recognised kinds is accepted by submission validation (only non-emptiness of
nodes and tests, and per-node host/username/auth, are checked), every node
runner (on a run free of transport failures, the modelled domain of
`executeTests`) yields an empty results map with overall status `passed` —
independently of the engine, i.e. no test runs — and the final aggregation
over nodes that all passed marks the job `completed`. -/
theorem unrecognized_tests_job_completed
    (nodesPayload : List NodePayload) (tests : List String) (dcgmLevel : Int) (jobId : String)
    (hn : nodesPayload ≠ []) (hok : ∀ p ∈ nodesPayload, nodeFieldsOk p = true)
    (ht : tests ≠ [])
    (hu : ∀ t ∈ tests, t ∉ (["nvbandwidth", "p2p", "nccl", "dcgm", "ib"] : List String)) :
    (∃ job, api_create_job nodesPayload tests dcgmLevel jobId = .ok job) ∧
    (∀ engine : String → TestRes,
      executeTests false tests engine = { results := [], overallStatus := "passed" }) ∧
    (∀ n : Nat, jobFinalStatus false (List.replicate n "passed") = "completed") := by
  have h1 : "nvbandwidth" ∉ tests := fun hm => hu _ hm (by decide)
  have h2 : "p2p" ∉ tests := fun hm => hu _ hm (by decide)
  have h3 : "nccl" ∉ tests := fun hm => hu _ hm (by decide)
  have h4 : "dcgm" ∉ tests := fun hm => hu _ hm (by decide)
  have h5 : "ib" ∉ tests := fun hm => hu _ hm (by decide)
  refine ⟨?_, ?_, ?_⟩
  · have e1 : nodesPayload.isEmpty = false := by
      simp [List.isEmpty_iff, hn]
    have e2 : tests.isEmpty = false := by
      simp [List.isEmpty_iff, ht]
    have e3 : nodesPayload.all nodeFieldsOk = true := List.all_eq_true.mpr hok
    refine ⟨{ jobId := jobId, status := "pending", tests := tests,
              dcgmLevel := dcgmLevel, cancelled := false, nodes := nodesPayload }, ?_⟩
    simp [api_create_job, e1, e2, e3]
  · intro engine
    simp [executeTests, selectedResults, overallOf, h1, h2, h3, h4, h5]
  · intro n
    have hall : (List.replicate n "passed").all (fun s => s == "passed") = true := by
      rw [List.all_eq_true]
      intro s hs
      rw [List.eq_of_mem_replicate hs]
      rfl
    simp [jobFinalStatus, hall]

/-- C10 witness: one valid node, the single unrecognised test kind `smoke`. -/
theorem unrecognized_tests_job_completed_witness :
    (∃ job, api_create_job [{ host := "h1", port := 22, username := "root",
                              auth := some { typ := "password", value := "pw" },
                              sudoPassword := none }]
        ["smoke"] 2 "j1" = .ok job) ∧
    (∀ engine : String → TestRes,
      executeTests false ["smoke"] engine = { results := [], overallStatus := "passed" }) ∧
    (∀ n : Nat, jobFinalStatus false (List.replicate n "passed") = "completed") :=
  unrecognized_tests_job_completed _ _ 2 "j1" (by decide) (by decide) (by decide) (by decide)
